import Mathlib

/-!
# Verification of the movietag frame-analysis pipeline

A shallow embedding, over exact rationals, of the matching, clustering,
classification and orchestration logic of the `movietag` backend
(`backend/app/services/film_matcher.py`, `backend/app/services/vision.py`,
`backend/app/services/vision_pipelines/*.py`, `backend/app/tasks/frames.py`).

Conventions used throughout:

* Python floats are modelled as rationals (`ℚ`); `round(x, n)` is modelled as
  round-half-to-even at `n` decimal digits, which is what Python's `round`
  computes on exactly representable values.
* Embedding vectors are `List ℚ`.  The code L2-normalizes vectors before use
  (`_normalize_vector`, CLIP feature normalization); since the Euclidean norm
  is irrational in general, functions that in the source receive
  already-normalized vectors are modelled as receiving the vectors as given,
  and the none-guards of the normalization (empty vector, zero norm) are kept.
  The one place where the result of a normalization is itself inspected
  numerically (`_compute_embedding`) is modelled exactly, with an explicit
  representation of `round(v / sqrt S, 6)` over rationals.
* Database sessions commit at the end of a task and roll back entirely on an
  exception (`_session_scope`); tasks are therefore modelled as functions
  `Env → DB → Except PyErr α × DB` that return the input `DB` unchanged on
  error, except where the source commits through a *separate* session
  (`_mark_failure`).
-/

namespace Movietag

/-! ## Rounding (Python `round(x, n)` on rationals)

Python's `round` uses round-half-to-even.  `rndHalfEven` is that rounding on
`ℚ`, and `roundTo n x` is `round(x, n)`. -/

def rndHalfEven (x : ℚ) : ℤ :=
  let f : ℤ := Rat.floor x
  let r : ℚ := x - f
  if r < 1/2 then f
  else if 1/2 < r then f + 1
  else if f % 2 = 0 then f else f + 1

def roundTo (n : ℕ) (x : ℚ) : ℚ :=
  (rndHalfEven (x * 10 ^ n) : ℚ) / 10 ^ n

/-! ## Film matcher (`backend/app/services/film_matcher.py`)

`_normalize_vector` converts the raw payload to a float vector, returns `None`
for an empty or zero-norm vector, and otherwise divides by the L2 norm.  The
claims about `match_movie` (per-film consolidation, thresholding, the worked
example) are stated on the vectors the matcher actually dots together, so the
model keeps the `None` guards (`normGuard`) and represents the division by the
(irrational) norm by working with the vectors as given. -/

def dot : List ℚ → List ℚ → ℚ
  | [], _ => 0
  | _, [] => 0
  | a :: as, b :: bs => a * b + dot as bs

def normSq (v : List ℚ) : ℚ := dot v v

/-- The `None` guards of `_normalize_vector`: empty input or zero norm. -/
def normGuard (v : List ℚ) : Option (List ℚ) :=
  if v = [] then none
  else if normSq v = 0 then none
  else some v

/-- The `None` guards of `_load_embedding`: missing payload, then
`_normalize_vector`. -/
def loadEmbedding (raw : Option (List ℚ)) : Option (List ℚ) :=
  match raw with
  | none => none
  | some v => normGuard v

/-- `FilmMatcher._compute_similarity`: scale the cosine similarity into
`[0, 1]` and round to 4 decimals. -/
def computeSimilarity (target candidate : List ℚ) : ℚ :=
  roundTo 4 (max 0 (min 1 ((dot target candidate + 1) / 2)))

structure MatchCandidate where
  frame_id : ℕ
  movie_id : ℕ
  similarity : ℚ
  captured_at : Option String
deriving Repr, DecidableEq

/-- One row of `FilmMatcher._candidate_rows`: a frame that has both a movie
assignment and a stored embedding. -/
structure CandidateRow where
  frame_id : ℕ
  movie_id : ℕ
  embedding : Option (List ℚ)
  captured_at : Option String
deriving Repr, DecidableEq

/-- The candidate-building loop of `match_movie`: parse/normalize each stored
embedding, skip the ones that fail, and score the rest. -/
def candidatesOf (target : List ℚ) (rows : List CandidateRow) :
    List MatchCandidate :=
  rows.filterMap fun r =>
    (loadEmbedding r.embedding).map fun v =>
      { frame_id := r.frame_id
        movie_id := r.movie_id
        similarity := computeSimilarity target v
        captured_at := r.captured_at }

/-- One step of building `best_by_movie`: Python-dict semantics, key order is
first-insertion order and the stored candidate is replaced in place when the
new one has a strictly higher similarity. -/
def updateBest (acc : List MatchCandidate) (c : MatchCandidate) :
    List MatchCandidate :=
  if acc.any fun e => e.movie_id = c.movie_id then
    acc.map fun e =>
      if e.movie_id = c.movie_id ∧ e.similarity < c.similarity then c else e
  else acc ++ [c]

/-- `best_by_movie` consolidation of `match_movie`. -/
def consolidate (cands : List MatchCandidate) : List MatchCandidate :=
  cands.foldl updateBest []

/-- `max(best_by_movie.values(), key=...)`: first maximum wins (Python `max`
keeps the earlier element on ties). -/
def maxBySim (l : List MatchCandidate) : Option MatchCandidate :=
  l.foldl
    (fun best c =>
      match best with
      | none => some c
      | some b => if b.similarity < c.similarity then some c else some b)
    none

structure MatchResult where
  movie_id : ℕ
  confidence : ℚ
  timestamp : Option String
  shot_id : String
deriving Repr, DecidableEq

/-- `FilmMatcher.match_movie`. -/
def matchMovie (minConfidence : ℚ) (embedding : Option (List ℚ))
    (rows : List CandidateRow) : Option MatchResult :=
  match normGuard (embedding.getD []) with
  | none => none
  | some target =>
    let cands := candidatesOf target rows
    if cands = [] then none
    else
      match maxBySim (consolidate cands) with
      | none => none
      | some best =>
        if best.similarity < minConfidence then none
        else
          some { movie_id := best.movie_id
                 confidence := best.similarity
                 timestamp := best.captured_at
                 shot_id := toString best.frame_id }

/-! ## Scene attribute classifier
(`backend/app/services/vision.py` `classify_attributes_with_clip`,
`backend/app/services/vision_pipelines/openclip_vitl14.py` /
`clip_vitb32.py` `score_attributes`)

The per-attribute loop receives the cosine similarities between the frame's
normalized image features and each prompt's normalized text features
(`similarity`), optionally blends each label's score with the similarity to a
learned prototype, and then selects either multi-label (for `lighting`) or the
argmax.  Image/text/prototype vectors are the already-normalized features the
code computes; their pairwise similarities are plain dot products (exact over
`ℚ`). -/

/-- The label keys of `SCENE_ATTRIBUTE_PROMPTS["lighting"]`, in order. -/
def lightingLabels : List String :=
  ["hard_light", "soft_light", "top_light", "silhouette",
   "high_contrast", "low_contrast", "side_light", "front_light"]

structure AttributeScore where
  attr : String
  value : String
  confidence : ℚ
deriving Repr, DecidableEq

/-- Python dict lookup `proto_map[label]` (`label in proto_map` guard):
prototype vector and example count. -/
def lookupProto (protoMap : List (String × (List ℚ × ℕ))) (label : String) :
    Option (List ℚ × ℕ) :=
  (protoMap.find? fun p => p.1 = label).map (·.2)

/-- Per-label score: `0.6 * clip_score + 0.4 * proto_sim` when a prototype
with matching dimensionality exists, otherwise the raw zero-shot text score.
The dimension check is the one of `OpenClipViTL14Pipeline.score_attributes`
(`proto_vec.shape[0] == image_features.shape[1]`). -/
def blendScore (imgFeat : List ℚ) (protoMap : List (String × (List ℚ × ℕ)))
    (label : String) (clipScore : ℚ) : ℚ :=
  match lookupProto protoMap label with
  | none => clipScore
  | some (pv, _) =>
    if pv.length = imgFeat.length then
      6/10 * clipScore + 4/10 * dot imgFeat pv
    else clipScore

/-- The blended `similarity` vector, as (label, final score) pairs. -/
def finalScores (imgFeat : List ℚ) (protoMap : List (String × (List ℚ × ℕ)))
    (pairs : List (String × ℚ)) : List (String × ℚ) :=
  pairs.map fun p => (p.1, blendScore imgFeat protoMap p.1 p.2)

/-- `float(similarity.max())` (torch errors on an empty tensor; the prompt
vocabularies are never empty). -/
def listMaxQ : List ℚ → ℚ
  | [] => 0
  | x :: xs => xs.foldl max x

def insertDescBySnd (p : String × ℚ) : List (String × ℚ) → List (String × ℚ)
  | [] => [p]
  | q :: rest => if q.2 ≤ p.2 then p :: q :: rest else q :: insertDescBySnd p rest

/-- `similarity.argsort(descending=True)` realised on (label, score) pairs;
the relative order of tied scores is unspecified in the source (torch argsort
is unstable) and fixed here by insertion sort. -/
def sortDescBySnd : List (String × ℚ) → List (String × ℚ)
  | [] => []
  | p :: rest => insertDescBySnd p (sortDescBySnd rest)

/-- The multi-label selection for `lighting`: walk the scores in descending
order and `break` at the first one below `max(0.2, best_score * 0.85)`. -/
def selectLighting (scored : List (String × ℚ)) : List (String × ℚ) :=
  let best := listMaxQ (scored.map (·.2))
  let threshold := max (2/10) (best * (85/100))
  (sortDescBySnd scored).takeWhile fun p => threshold ≤ p.2

/-- `similarity.argmax()`: the first maximal entry. -/
def argmaxBySnd : List (String × ℚ) → Option (String × ℚ)
  | [] => none
  | p :: rest => some (rest.foldl (fun b q => if b.2 < q.2 then q else b) p)

/-- One attribute category of `score_attributes`: blend with prototypes, then
multi-label selection for `lighting` or single-label argmax otherwise, with
confidences rounded to 3 decimals. -/
def scoreAttribute (attrName : String) (imgFeat : List ℚ)
    (protoMap : List (String × (List ℚ × ℕ))) (pairs : List (String × ℚ)) :
    List AttributeScore :=
  let scored := finalScores imgFeat protoMap pairs
  if attrName = "lighting" then
    (selectLighting scored).map fun p => ⟨attrName, p.1, roundTo 3 p.2⟩
  else
    match argmaxBySnd scored with
    | none => []
    | some p => [⟨attrName, p.1, roundTo 3 p.2⟩]

/-! ## Persisting scene attributes (`backend/app/tasks/frames.py`)

`_persist_scene_attributes` iterates the object it is handed and reads
`prediction.confidence` / `.value` / `.attribute` from each element.
`detect_scene_attributes` hands it the value returned by
`predict_scene_attributes`, which is a `(predictions, embedding)` *pair*, not
a list of predictions; iterating the pair yields a `list` object whose
`.confidence` access raises `AttributeError`.  The iterated elements are
modelled as a small dynamic type `PyObj`. -/

structure ScenePred where
  attr : String
  value : String
  confidence : Option ℚ
deriving Repr, DecidableEq

structure SceneRow where
  frame_id : ℕ
  attr : String
  value : String
  confidence : ℚ
deriving Repr, DecidableEq

/-- A Python value reached by iterating the argument of
`_persist_scene_attributes`: a genuine prediction object, or one of the two
components of the `(predictions, embedding)` pair. -/
inductive PyObj where
  | pred (p : ScenePred)
  | predList (ps : List ScenePred)
  | embList (e : Option (List ℚ))
deriving Repr, DecidableEq

/-- `_persist_scene_attributes(session, frame, predictions)` over the iterated
elements: skip `None` confidences, store `"unknown"` in place of the value for
confidences below `min_confidence`, round stored confidences to 3 decimals;
accessing `.confidence` on a non-prediction element raises `AttributeError`. -/
def persistSceneAttributesPy (frameId : ℕ) (minConfidence : ℚ) :
    List PyObj → Except String (List SceneRow)
  | [] => .ok []
  | item :: rest =>
    match item with
    | .pred p =>
      match p.confidence with
      | none => persistSceneAttributesPy frameId minConfidence rest
      | some c =>
        (persistSceneAttributesPy frameId minConfidence rest).map fun rows =>
          ⟨frameId, p.attr,
            if minConfidence ≤ c then p.value else "unknown",
            roundTo 3 c⟩ :: rows
    | .predList _ => .error "AttributeError: 'list' object has no attribute 'confidence'"
    | .embList _ => .error "AttributeError: 'list' object has no attribute 'confidence'"

/-! ## Face identity tracking (`backend/app/tasks/frames.py`
`_cluster_unknown_faces`, `_best_match_for_face`, `detect_actor_faces`)

`cosine_similarity` (`vision.py`) normalizes both vectors by their (irrational)
Euclidean norm before the dot product, so the clustering and matching logic is
modelled with the similarity function as a parameter; the structural claims
(thresholding, label minting, maximum selection) do not depend on it, and
concrete instances use the plain dot product. -/

/-- Elementwise vector sum (`np` broadcasting over equal-length rows; `numpy`
errors on ragged input, which the stored face embeddings never are). -/
def vecAdd (a b : List ℚ) : List ℚ := List.zipWith (· + ·) a b

def vecSum : List (List ℚ) → List ℚ
  | [] => []
  | v :: vs => vs.foldl vecAdd v

/-- `np.mean(np.asarray(embeddings), axis=0)`. -/
def centroidOf (vs : List (List ℚ)) : List ℚ :=
  (vecSum vs).map (· / (vs.length : ℚ))

/-- Python `label.split("-")` on the character list. -/
def splitDash : List Char → List (List Char)
  | [] => [[]]
  | c :: rest =>
    let r := splitDash rest
    if c = '-' then [] :: r
    else
      match r with
      | [] => [[c]]
      | seg :: segs => (c :: seg) :: segs

/-- Python `int(s)` for an all-digits string. -/
def parseNatChars (cs : List Char) : ℕ :=
  cs.foldl (fun acc c => acc * 10 + (c.toNat - 48)) 0

/-- The numeric suffix accepted by `_next_cluster_label`: the label starts
with `"unknown-"` and its last dash-separated segment is a nonempty digit
string (`str.isdigit`, restricted to ASCII digits). -/
def labelSuffix (label : String) : Option ℕ :=
  if label.data.take 8 = ['u', 'n', 'k', 'n', 'o', 'w', 'n', '-'] then
    let last := ((splitDash label.data).getLast?).getD []
    if last ≠ [] ∧ last.all Char.isDigit then some (parseNatChars last)
    else none
  else none

/-- The index minted by `_next_cluster_label`: `max(indices) + 1` when any
label parses, else 1. -/
def nextClusterIndex (labels : List String) : ℕ :=
  match labels.filterMap labelSuffix with
  | [] => 1
  | i :: is => is.foldl max i + 1

/-- `_next_cluster_label`: one more than the highest numeric suffix among the
current cluster labels, or 1 when none parse. -/
def nextClusterLabel (labels : List String) : String :=
  "unknown-" ++ toString (nextClusterIndex labels)

/-- `clusters.setdefault(label, []).append(embedding)`: Python-dict insertion
order, append to an existing cluster or create it at the end. -/
def appendToCluster (clusters : List (String × List (List ℚ)))
    (label : String) (e : List ℚ) : List (String × List (List ℚ)) :=
  if clusters.any fun cl => cl.1 = label then
    clusters.map fun cl => if cl.1 = label then (cl.1, cl.2 ++ [e]) else cl
  else clusters ++ [(label, [e])]

/-- Grouping the film's prior unknown-face detections by `cluster_label`
(`record.cluster_label or "unknown"`; `none` stands for a Python-falsy label).
Empty parsed embeddings are skipped. -/
def clustersOfExisting (existing : List (Option String × List ℚ)) :
    List (String × List (List ℚ)) :=
  existing.foldl
    (fun cls rec =>
      if rec.2 = [] then cls
      else appendToCluster cls (rec.1.getD "unknown") rec.2)
    []

/-- The best-cluster scan of `_cluster_unknown_faces`: strict improvement over
an initial score of 0, so a label is only selected with a positive score. -/
def bestCluster (sim : List ℚ → List ℚ → ℚ) (e : List ℚ)
    (clusters : List (String × List (List ℚ))) : Option String × ℚ :=
  clusters.foldl
    (fun best cl =>
      let score := sim e (centroidOf cl.2)
      if best.2 < score then (some cl.1, score) else best)
    (none, 0)

/-- One unknown-face detection as seen by `_cluster_unknown_faces`:
`cast_member_id` and the parsed embedding (`none` for a Python-falsy
`detection.embedding`). -/
structure DetectionIn where
  cast_member_id : Option ℕ
  embedding : Option (List ℚ)
deriving Repr, DecidableEq

/-- One iteration of the detection loop of `_cluster_unknown_faces`: returns
the `(track_status, cluster_label)` pair and the updated clusters. -/
def clusterOne (sim : List ℚ → List ℚ → ℚ) (threshold : ℚ)
    (clusters : List (String × List (List ℚ))) (d : DetectionIn) :
    (String × String) × List (String × List (List ℚ)) :=
  if d.cast_member_id.isSome ∨ d.embedding = none then
    (("identified", ""), clusters)
  else
    let e := d.embedding.getD []
    if e = [] then (("untracked", ""), clusters)
    else
      let best := bestCluster sim e clusters
      match best.1 with
      | some l =>
        if l ≠ "" ∧ threshold ≤ best.2 then
          (("tracked", l), appendToCluster clusters l e)
        else
          let lbl := nextClusterLabel (clusters.map (·.1))
          (("new_track", lbl), appendToCluster clusters lbl e)
      | none =>
        let lbl := nextClusterLabel (clusters.map (·.1))
        (("new_track", lbl), appendToCluster clusters lbl e)

/-- `_cluster_unknown_faces` over the new detections, in order (each
`tracked`/`new_track` face is appended to the clusters before the next face is
resolved). -/
def clusterUnknownFaces (sim : List ℚ → List ℚ → ℚ) (threshold : ℚ)
    (clusters₀ : List (String × List (List ℚ))) (dets : List DetectionIn) :
    List (String × String) :=
  (dets.foldl
    (fun acc d =>
      let r := clusterOne sim threshold acc.2 d
      (acc.1 ++ [r.1], r.2))
    (([] : List (String × String)), clusters₀)).1

/-! ## Per-detection confidences (`detect_actor_faces`, `tag_frame`) -/

/-- `_best_match_for_face`: best cast similarity with strict improvement over
0, accepted only at or above the recognition threshold. -/
def bestMatchForFace (sim : List ℚ → List ℚ → ℚ) (faceEmb : List ℚ)
    (castEmbeddings : List (ℕ × List ℚ)) (threshold : ℚ) : Option ℕ × ℚ :=
  let r := castEmbeddings.foldl
    (fun best ce =>
      let score := sim faceEmb ce.2
      if best.2 < score then (some ce.1, score) else best)
    ((none : Option ℕ), 0)
  if r.2 < threshold then (none, r.2) else r

/-- The combined per-detection confidence of `detect_actor_faces`:
`round(min(1.0, face_confidence * max(similarity, 0.5)), 3)`. -/
def combinedConfidence (faceConfidence similarity : ℚ) : ℚ :=
  roundTo 3 (min 1 (faceConfidence * max similarity (1/2)))

/-- `_confidence_scores` of `tag_frame`: `round(0.4 + 0.6 * base, 4)` where
`base` cycles through the frame embedding's components (0.5 for an empty
embedding). -/
def confidenceScores (embedding : List ℚ) (count : ℕ) : List ℚ :=
  (List.range count).map fun index =>
    let base :=
      if embedding = [] then 1/2
      else embedding.getD (index % embedding.length) 0
    roundTo 4 (4/10 + 6/10 * base)

/-! ## Deterministic fallback embedding (`backend/app/tasks/frames.py`
`_compute_embedding`)

The fallback derives a vector from pixel statistics, divides by its Euclidean
norm (`np.linalg.norm(vector) or 1.0`), rounds each component to 6 decimals
and truncates to the first `dimensions` components.  The pre-normalization
vector is `[mean_r, mean_g, mean_b, std_r, std_g, std_b] ++ sample`; the
standard deviations are square roots of rational variances, so components are
represented as either exact rationals or `√q`, and the squared norm
`S = Σ mean² + Σ variance + Σ sample²` is exactly rational.  Rounding a real
`√u` half-to-even is decided by integer comparisons (`4u` against
`(2⌊√u⌋+1)²`), so the whole function is executable over `ℚ`.  (NumPy computes
in float64; the model is the exact-arithmetic reading of the same formulas.
A zero pixel count would be a NumPy error and cannot occur for an image.) -/

/-- `l[::f]`: every `f`-th element. -/
def strideList (f : ℕ) (l : List α) : List α :=
  (List.range l.length).filterMap fun i =>
    if i % f = 0 then l.get? i else none

/-- `np.pad(l, (0, extra), mode="wrap")`: append `extra` elements cycling
through `l` (NumPy rejects an empty `l`, which cannot arise from an image). -/
def padWrap (l : List ℚ) (extra : ℕ) : List ℚ :=
  l ++ (List.range extra).map fun i => l.getD (i % l.length) 0

/-- A pre-normalization vector component: an exact rational, or the square
root of a rational (a channel standard deviation). -/
inductive EmbEntry where
  | rat (q : ℚ)
  | sqrtOf (q : ℚ)
deriving Repr, DecidableEq

/-- The squared value of a component (exactly rational either way). -/
def EmbEntry.sq : EmbEntry → ℚ
  | .rat q => q * q
  | .sqrtOf q => q

/-- Round-half-even of the real `√u` (`u ≥ 0`): `⌊√u⌋` via `Nat.sqrt`, and
the half comparison `√u ≷ n + 1/2` decided as `4u ≷ (2n+1)²`. -/
def rndHalfEvenSqrt (u : ℚ) : ℕ :=
  let n := Nat.sqrt (Rat.floor u).toNat
  if 4 * u < (((2 * n + 1) * (2 * n + 1) : ℕ) : ℚ) then n
  else if (((2 * n + 1) * (2 * n + 1) : ℕ) : ℚ) < 4 * u then n + 1
  else if n % 2 = 0 then n else n + 1

/-- `round(√t, 6)` for `t ≥ 0`. -/
def r6sqrt (t : ℚ) : ℚ :=
  (rndHalfEvenSqrt (t * 10 ^ 12) : ℚ) / 10 ^ 6

/-- `round(a / √S, 6)` for `S > 0`, using `a/√S = sign(a)·√(a²/S)` and the
symmetry of round-half-even. -/
def r6divSqrt (a S : ℚ) : ℚ :=
  if 0 ≤ a then r6sqrt (a * a / S) else - r6sqrt (a * a / S)

/-- `round(value / (norm or 1.0), 6)` of one component, where `S` is the
squared norm (`S = 0` means the guard replaced the norm by `1.0`). -/
def roundEntry (S : ℚ) : EmbEntry → ℚ
  | .rat q => if S = 0 then roundTo 6 q else r6divSqrt q S
  | .sqrtOf t => if S = 0 then r6sqrt t else r6sqrt (t / S)

/-- `_compute_embedding` over an H×W grid of RGB pixel values (uint8 values
as rationals). -/
def computeEmbedding (image : List (List (ℚ × ℚ × ℚ)))
    (dimensions : ℕ) : List ℚ :=
  let height := image.length
  let width := (image.headD []).length
  let f := max 1 (min height width / 64)
  let reduced := (strideList f image).map (strideList f)
  let pixels := reduced.flatten
  let n : ℚ := pixels.length
  let meanR := (pixels.map fun p => p.1).sum / n
  let meanG := (pixels.map fun p => p.2.1).sum / n
  let meanB := (pixels.map fun p => p.2.2).sum / n
  let varR := (pixels.map fun p => (p.1 - meanR) * (p.1 - meanR)).sum / n
  let varG := (pixels.map fun p => (p.2.1 - meanG) * (p.2.1 - meanG)).sum / n
  let varB := (pixels.map fun p => (p.2.2 - meanB) * (p.2.2 - meanB)).sum / n
  let flattened := pixels.flatMap fun p => [p.1, p.2.1, p.2.2]
  let sample : List ℚ :=
    if dimensions < flattened.length then
      (List.range (dimensions - 6)).map fun i =>
        flattened.getD (i * (flattened.length - 1) / (dimensions - 7)) 0
    else padWrap flattened (dimensions - flattened.length)
  let entries : List EmbEntry :=
    [.rat meanR, .rat meanG, .rat meanB,
     .sqrtOf varR, .sqrtOf varG, .sqrtOf varB] ++ sample.map .rat
  let S := (entries.map EmbEntry.sq).sum
  (entries.take dimensions).map (roundEntry S)

/-! ## Pipeline orchestration (`backend/app/tasks/frames.py`)

Each Celery task opens one session that commits on success and rolls back
wholly on an exception (`_session_scope`), so a task is modelled as
`... → Except PyErr α × DB` whose returned `DB` equals its input on error —
except `_mark_failure`, which commits through a session of its own.  External
collaborators are environment data: which paths exist locally, which storage
URIs `download_to_path` can fetch (an unresolvable URI raises `ValueError`
from `_bucket_and_key`, a missing object a boto `ClientError`; both are
non-`FileNotFoundError` and propagate identically, modelled as `valueErr`),
which signed URLs answer, the encoder output, the scene predictions and the
detected faces.  Model inference (`encode_image_with_clip`,
`predict_scene_attributes`, `detect_faces`) is inference over frozen models
and enters as environment data; `predict_scene_attributes` catches its own
exceptions and always returns a `(predictions, embedding)` pair. -/

inductive PyErr where
  | fileNotFound (msg : String)
  | valueErr (msg : String)
  | attrErr (msg : String)
  | httpErr (msg : String)
deriving Repr, DecidableEq

def PyErr.msg : PyErr → String
  | .fileNotFound m => m
  | .valueErr m => m
  | .attrErr m => m
  | .httpErr m => m

structure FrameRec where
  id : ℕ
  movie_id : Option ℕ
  file_path : String
  storage_uri : Option String
  signed_url : Option String
  status : String
  failure_reason : Option String
  embedding : Option (List ℚ)
  predicted_movie_id : Option ℕ
  match_confidence : Option ℚ
deriving Repr, DecidableEq

structure ActorRow where
  frame_id : ℕ
  cast_member_id : Option ℕ
  confidence : ℚ
  cluster_label : Option String
  track_status : Option String
  embedding : Option (List ℚ)
deriving Repr, DecidableEq

/-- The relational store: frames, their owned rows, the movie/cast tables the
tasks read, a log of committed status writes (in commit order) and the id
sequence. -/
structure DB where
  frames : List FrameRec
  sceneAttrs : List SceneRow
  actorDets : List ActorRow
  movies : List ℕ
  movieCast : List (ℕ × ℕ)
  statusLog : List (ℕ × String)
  nextId : ℕ
deriving Repr, DecidableEq

def DB.findFrame (db : DB) (fid : ℕ) : Option FrameRec :=
  db.frames.find? fun f => f.id = fid

/-- Commit an updated frame row and log its status write. -/
def DB.commitFrame (db : DB) (f : FrameRec) : DB :=
  { db with
    frames := db.frames.map fun g => if g.id = f.id then f else g
    statusLog := db.statusLog ++ [(f.id, f.status)] }

structure FaceDet where
  confidence : ℚ
  embedding : List ℚ
deriving Repr, DecidableEq

structure Env where
  localFiles : List String
  resolvableURIs : List String
  fetchableURLs : List String
  embedding : List ℚ
  scenePreds : List ScenePred
  sceneEmb : Option (List ℚ)
  faces : List FaceDet
  castEmbeddings : List (ℕ × List ℚ)
  faceMinConfidence : ℚ
  faceMatchThreshold : ℚ
  faceUnknownThreshold : ℚ
deriving Repr, DecidableEq

/-- `_ensure_local_copy`: an existing local path wins; else download by
storage URI (failure is not a `FileNotFoundError`); else `FileNotFoundError`. -/
def ensureLocalCopy (env : Env) (filePath : String)
    (storageUri : Option String) : Except PyErr Unit :=
  if filePath ∈ env.localFiles then .ok ()
  else
    match storageUri with
    | some u =>
      if u ∈ env.resolvableURIs then .ok ()
      else .error (.valueErr ("Unsupported storage URI: " ++ u))
    | none => .error (.fileNotFound ("Frame not found at " ++ filePath))

/-- `_materialize_frame`: `_ensure_local_copy`, then on `FileNotFoundError`
retry storage, then the signed URL, else fail fatally. -/
def materializeFrame (env : Env) (f : FrameRec) : Except PyErr Unit :=
  match ensureLocalCopy env f.file_path f.storage_uri with
  | .ok _ => .ok ()
  | .error (.fileNotFound _) =>
    match f.storage_uri with
    | some u =>
      if u ∈ env.resolvableURIs then .ok ()
      else .error (.valueErr ("Unsupported storage URI: " ++ u))
    | none =>
      match f.signed_url with
      | some s =>
        if s ∈ env.fetchableURLs then .ok ()
        else .error (.httpErr "signed url fetch failed")
      | none =>
        .error (.fileNotFound
          "Frame content is unavailable (no storage_uri or signed_url)")
  | .error e => .error e

/-- `_mark_failure`: its own session; a missing frame is a silent no-op. -/
def markFailure (db : DB) (fid : ℕ) (reason : String) : DB :=
  match db.findFrame fid with
  | none => db
  | some f =>
    db.commitFrame { f with status := "failed", failure_reason := some reason }

/-- The content-resolution prologue of `import_frame`: `_ensure_local_copy`,
whose `FileNotFoundError` (only raised with no storage URI) falls back to the
temp-download branches. -/
def resolveImportContent (env : Env) (filePath : String)
    (storageUri signedUrl : Option String) : Except PyErr Unit :=
  match ensureLocalCopy env filePath storageUri with
  | .ok _ => .ok ()
  | .error (.fileNotFound m) =>
    match storageUri with
    | some u =>
      if u ∈ env.resolvableURIs then .ok ()
      else .error (.valueErr ("Unsupported storage URI: " ++ u))
    | none =>
      match signedUrl with
      | some s =>
        if s ∈ env.fetchableURLs then .ok ()
        else .error (.httpErr "signed url fetch failed")
      | none => .error (.fileNotFound m)
  | .error e => .error e

/-- The `Frame`-row creation of `import_frame`: a fresh id, status `new`. -/
def createFrameRow (db : DB) (filePath : String) (movieId : Option ℕ)
    (storageUri signedUrl : Option String) : DB × ℕ :=
  ({ db with
      frames := db.frames ++
        [⟨db.nextId, movieId, filePath, storageUri, signedUrl, "new",
          none, none, none, none⟩]
      statusLog := db.statusLog ++ [(db.nextId, "new")]
      nextId := db.nextId + 1 }, db.nextId)

/-- `import_frame`: resolve the content (with the temp-download fallbacks),
check the movie exists, then create the `Frame` row with status `new`.  The
row is created only after the content resolves; a resolution error escapes
before any session is opened. -/
def importFrame (env : Env) (db : DB) (filePath : String) (movieId : Option ℕ)
    (storageUri signedUrl : Option String) : Except PyErr (DB × ℕ) :=
  match resolveImportContent env filePath storageUri signedUrl with
  | .error e => .error e
  | .ok _ =>
    match movieId with
    | some m =>
      if m ∈ db.movies then
        .ok (createFrameRow db filePath movieId storageUri signedUrl)
      else
        .error (.valueErr ("Movie with id " ++ toString m ++ " does not exist"))
    | none => .ok (createFrameRow db filePath none storageUri signedUrl)

/-- `embed_frame`: materialize, embed (encoder output or the deterministic
fallback, both environment data), store embedding, commit status `embedded`.
The transient `status = "embedding"` write is flushed but never separately
committed; a materialization error rolls the session back. -/
def embedFrame (env : Env) (db : DB) (fid : ℕ) : Except PyErr Unit × DB :=
  match db.findFrame fid with
  | none =>
    (.error (.valueErr ("Frame with id " ++ toString fid ++ " does not exist")),
      db)
  | some f =>
    match materializeFrame env f with
    | .error e => (.error e, db)
    | .ok _ =>
      (.ok (),
        db.commitFrame { f with
          embedding := some env.embedding
          status := "embedded"
          failure_reason := none })

/-- `tag_frame`: requires the frame's movie to exist; commits status `tagged`.
(The `FrameTag` rows it creates carry the `confidenceScores` confidences and
are not tracked in the model `DB`.) -/
def tagFrame (db : DB) (fid : ℕ) : Except PyErr Unit × DB :=
  match db.findFrame fid with
  | none =>
    (.error (.valueErr ("Frame with id " ++ toString fid ++ " does not exist")),
      db)
  | some f =>
    match f.movie_id with
    | none => (.error (.valueErr "Movie with id None does not exist"), db)
    | some m =>
      if m ∈ db.movies then
        (.ok (),
          db.commitFrame { f with
            status := "tagged", failure_reason := none })
      else
        (.error (.valueErr ("Movie with id " ++ toString m
          ++ " does not exist")), db)

/-- `detect_scene_attributes`: delete prior rows (in-session), materialize
(`FileNotFoundError` is marked as a failure through a separate session and
re-raised), call `predict_scene_attributes` — which returns the
`(predictions, embedding)` pair, never falsy, so the fallback branch is dead —
and hand the pair to `_persist_scene_attributes`, which iterates its two
components. -/
def detectSceneAttributes (env : Env) (db : DB) (fid : ℕ) :
    Except PyErr Unit × DB :=
  match db.findFrame fid with
  | none =>
    (.error (.valueErr ("Frame with id " ++ toString fid ++ " does not exist")),
      db)
  | some f =>
    match materializeFrame env f with
    | .error (.fileNotFound m) =>
      (.error (.fileNotFound m), markFailure db fid m)
    | .error e => (.error e, db)
    | .ok _ =>
      let pairItems := [PyObj.predList env.scenePreds, PyObj.embList env.sceneEmb]
      match persistSceneAttributesPy fid (2/10) pairItems with
      | .error m => (.error (.attrErr m), db)
      | .ok rows =>
        (.ok (),
          { (db.commitFrame { f with
                status := "scene_annotated", failure_reason := none }) with
            sceneAttrs :=
              (db.sceneAttrs.filter fun r => r.frame_id ≠ fid) ++ rows })

/-- The prior unknown-face rows of a movie, as `(label, embedding)` input to
the clustering (`cluster_label or "unknown"`: a `None`/empty label reads as
`none`). -/
def existingUnknownFaceRows (db : DB) (movieId : ℕ) :
    List (Option String × List ℚ) :=
  db.actorDets.filterMap fun r =>
    match db.findFrame r.frame_id with
    | some fr =>
      if fr.movie_id = some movieId ∧ r.cast_member_id = none
          ∧ r.cluster_label ≠ none ∧ r.embedding ≠ none then
        some (r.cluster_label.bind fun l => if l = "" then none else some l,
          r.embedding.getD [])
      else none
    | none => none

/-- `detect_actor_faces`: delete prior rows, materialize (errors roll back),
match each face against the cast references, combine confidences, resolve
unknown faces against the film's identity tracks, commit status
`actors_detected` (with the legacy seeded rows when no face was detected). -/
def detectActorFaces (sim : List ℚ → List ℚ → ℚ) (env : Env) (db : DB)
    (fid : ℕ) : Except PyErr Unit × DB :=
  match db.findFrame fid with
  | none =>
    (.error (.valueErr ("Frame with id " ++ toString fid ++ " does not exist")),
      db)
  | some f =>
    match materializeFrame env f with
    | .error e => (.error e, db)
    | .ok _ =>
      let recs := env.faces.map fun face =>
        let m := bestMatchForFace sim face.embedding env.castEmbeddings
          env.faceMatchThreshold
        if face.confidence < env.faceMinConfidence then
          ((none : Option ℕ), (0 : ℚ), face)
        else (m.1, m.2, face)
      let movieId? := match f.movie_id with
        | some m => some m
        | none => f.predicted_movie_id
      let dets : List DetectionIn := recs.map fun r =>
        ⟨r.1, some r.2.2.embedding⟩
      let clustering : Option (List (String × String)) :=
        match movieId? with
        | none => none
        | some m =>
          some (clusterUnknownFaces sim env.faceUnknownThreshold
            (clustersOfExisting (existingUnknownFaceRows db m)) dets)
      let statuses : List (Option (String × String)) :=
        match clustering with
        | none => recs.map fun _ => none
        | some cs => cs.map some
      let newRows := (recs.zip statuses).map fun p =>
        let conf := combinedConfidence p.1.2.2.confidence p.1.2.1
        match p.1.1 with
        | some cid =>
          (⟨fid, some cid, conf, none, some "identified",
            some p.1.2.2.embedding⟩ : ActorRow)
        | none =>
          match p.2 with
          | some st => ⟨fid, none, conf, some st.2, some st.1,
              some p.1.2.2.embedding⟩
          | none => ⟨fid, none, conf, none, none, some p.1.2.2.embedding⟩
      let legacyRows : List ActorRow :=
        ((db.movieCast.filter fun mc => some mc.1 = f.movie_id).take 3).zip
            (List.range 3) |>.map fun p =>
          ⟨fid, some p.1.2, roundTo 3 (7/10 - 5/100 * (p.2 : ℚ)), none,
            some "seeded", none⟩
      let rows := if newRows.isEmpty ∧ env.faces.isEmpty then legacyRows
        else newRows
      (.ok (),
        { (db.commitFrame { f with
              status := "actors_detected", failure_reason := none }) with
          actorDets :=
            (db.actorDets.filter fun r => r.frame_id ≠ fid) ++ rows })

/-- `_match_frame` / `_match_frame_with_known_movies`: reset the prediction
fields, run the `FilmMatcher` over the frames that have both a movie and an
embedding, commit `matched` or `unmatched`. -/
def matchFrameTask (db : DB) (fid : ℕ) : Except PyErr Unit × DB :=
  match db.findFrame fid with
  | none =>
    (.error (.valueErr ("Frame with id " ++ toString fid ++ " does not exist")),
      db)
  | some f =>
    let rows : List CandidateRow := db.frames.filterMap fun fr =>
      match fr.movie_id, fr.embedding with
      | some m, some e => some ⟨fr.id, m, some e, none⟩
      | _, _ => none
    match matchMovie (2/10) f.embedding rows with
    | some mr =>
      (.ok (), db.commitFrame { f with
        predicted_movie_id := some mr.movie_id
        match_confidence := some mr.confidence
        status := "matched"
        failure_reason := none })
    | none =>
      (.ok (), db.commitFrame { f with
        predicted_movie_id := none
        match_confidence := none
        status := "unmatched"
        failure_reason := none })

structure IngestArgs where
  file_path : String
  movie_id : Option ℕ
  storage_uri : Option String
  signed_url : Option String
deriving Repr, DecidableEq

/-- One attempt of `ingest_and_tag_frame`: import (whose failure escapes
before any row exists), then embed and either match (film unknown) or
tag → scene attributes → actor faces (film known); any post-import failure is
recorded via `_mark_failure` and re-raised; on full success the final session
writes status `tagged` back when the film was known.  (The asynchronous
metadata-enrichment enqueue is outside the modelled run.) -/
def ingestAttempt (sim : List ℚ → List ℚ → ℚ) (env : Env) (db : DB)
    (a : IngestArgs) : Except PyErr ℕ × DB :=
  match importFrame env db a.file_path a.movie_id a.storage_uri a.signed_url with
  | .error e => (.error e, db)
  | .ok (db1, fid) =>
    match embedFrame env db1 fid with
    | (.error e, db2) => (.error e, markFailure db2 fid e.msg)
    | (.ok _, db2) =>
      match a.movie_id with
      | none =>
        match matchFrameTask db2 fid with
        | (.error e, db3) => (.error e, markFailure db3 fid e.msg)
        | (.ok _, db3) => (.ok fid, db3)
      | some _ =>
        match tagFrame db2 fid with
        | (.error e, db3) => (.error e, markFailure db3 fid e.msg)
        | (.ok _, db3) =>
          match detectSceneAttributes env db3 fid with
          | (.error e, db4) => (.error e, markFailure db4 fid e.msg)
          | (.ok _, db4) =>
            match detectActorFaces sim env db4 fid with
            | (.error e, db5) => (.error e, markFailure db5 fid e.msg)
            | (.ok _, db5) =>
              match db5.findFrame fid with
              | some fr =>
                (.ok fid,
                  db5.commitFrame { fr with
                    status := "tagged", failure_reason := none })
              | none => (.ok fid, db5)

/-- `ingest_and_tag_frame` with its Celery `autoretry_for=(Exception,)`,
`max_retries = retries`: a failed attempt is retried on the database state it
left behind; the last error escapes. -/
def ingestPipeline (sim : List ℚ → List ℚ → ℚ) (env : Env) (db : DB)
    (a : IngestArgs) : ℕ → Except PyErr ℕ × DB
  | 0 => ingestAttempt sim env db a
  | n + 1 =>
    match ingestAttempt sim env db a with
    | (.ok fid, db') => (.ok fid, db')
    | (.error _, db') => ingestPipeline sim env db' a n

/-- The pipeline's committed frame statuses: the spec-level states a pipeline
run can write.  `analyzed` is not among them (it is written only by the manual
review API endpoints, outside the pipeline). -/
def pipelineStatuses : List String :=
  ["new", "embedded", "tagged", "matched", "unmatched",
   "scene_annotated", "actors_detected", "failed"]

/-- A concrete environment: one materializable local frame image, no object
storage, the scene classifier producing one prediction, no detectable faces. -/
def exEnv : Env :=
  { localFiles := ["frames/f1.jpg"]
    resolvableURIs := []
    fetchableURLs := []
    embedding := [1, 0]
    scenePreds := [⟨"time_of_day", "day", some (9/10)⟩]
    sceneEmb := some [1, 0]
    faces := []
    castEmbeddings := []
    faceMinConfidence := 9/10
    faceMatchThreshold := 55/100
    faceUnknownThreshold := 58/100 }

/-- A concrete initial store: one movie (id 5), no frames yet. -/
def exDB : DB :=
  { frames := [], sceneAttrs := [], actorDets := [], movies := [5]
    movieCast := [], statusLog := [], nextId := 1 }

/-- A stored frame whose image is available locally, for concrete task runs. -/
def exFrame : FrameRec :=
  ⟨1, some 5, "frames/f1.jpg", none, none, "embedded", none, some [1, 0],
    none, none⟩

/-- `exDB` after `exFrame` has been imported and embedded. -/
def exDB2 : DB :=
  { frames := [exFrame], sceneAttrs := [], actorDets := [], movies := [5]
    movieCast := [], statusLog := [], nextId := 2 }

/-- Every status entry of `db'` is inherited from `db` or is one of the
statuses the pipeline can commit. -/
def LogBounded (db db' : DB) : Prop :=
  ∀ p ∈ db'.statusLog, p ∈ db.statusLog ∨ p.2 ∈ pipelineStatuses

theorem ratFloor_eq_floor (x : ℚ) : Rat.floor x = ⌊x⌋ := by
  apply le_antisymm
  · exact Int.le_floor.mpr (Rat.le_floor.mp (le_refl _))
  · exact Rat.le_floor.mpr (Int.floor_le x)

theorem rndHalfEven_ge_floor (x : ℚ) : ⌊x⌋ ≤ rndHalfEven x := by
  unfold rndHalfEven
  simp only [ratFloor_eq_floor]
  split
  · exact le_refl _
  · split
    · exact le_of_lt (lt_add_one _)
    · split
      · exact le_refl _
      · exact le_of_lt (lt_add_one _)

theorem rndHalfEven_le_floor_add_one (x : ℚ) : rndHalfEven x ≤ ⌊x⌋ + 1 := by
  unfold rndHalfEven
  simp only [ratFloor_eq_floor]
  split
  · exact le_of_lt (lt_add_one _)
  · split
    · exact le_refl _
    · split
      · exact le_of_lt (lt_add_one _)
      · exact le_refl _

theorem rndHalfEven_nonneg {x : ℚ} (hx : 0 ≤ x) : 0 ≤ rndHalfEven x := by
  have h := rndHalfEven_ge_floor x
  have h0 : (0 : ℤ) ≤ ⌊x⌋ := by
    exact Int.le_floor.mpr (by exact_mod_cast hx)
  omega

theorem rndHalfEven_le_of_le_int {x : ℚ} {B : ℤ} (hx : x ≤ B) :
    rndHalfEven x ≤ B := by
  rcases lt_or_eq_of_le hx with h | h
  · have hf : ⌊x⌋ < B := by
      have : ⌊x⌋ ≤ ⌊(B : ℚ)⌋ := Int.floor_le_floor (le_of_lt h)
      rw [Int.floor_intCast] at this
      rcases lt_or_eq_of_le this with h' | h'
      · exact h'
      · exfalso
        have : (B : ℚ) ≤ x := by
          rw [← h']
          exact Int.floor_le x
        exact absurd h (not_lt.mpr this)
    have := rndHalfEven_le_floor_add_one x
    omega
  · subst h
    have : rndHalfEven (B : ℚ) = B := by
      unfold rndHalfEven
      simp [ratFloor_eq_floor, Int.floor_intCast]
    omega

/-- `roundTo n` maps `[0, 1]` into `[0, 1]`. -/
theorem roundTo_mem_unit {n : ℕ} {x : ℚ} (h0 : 0 ≤ x) (h1 : x ≤ 1) :
    0 ≤ roundTo n x ∧ roundTo n x ≤ 1 := by
  unfold roundTo
  have hpow : (0 : ℚ) < 10 ^ n := by positivity
  constructor
  · apply div_nonneg _ (le_of_lt hpow)
    exact_mod_cast rndHalfEven_nonneg (by positivity)
  · rw [div_le_one hpow]
    have hle : x * 10 ^ n ≤ ((10 ^ n : ℤ) : ℚ) := by
      push_cast
      nlinarith
    have := rndHalfEven_le_of_le_int hle
    exact_mod_cast this

/-! ### Properties of the per-film consolidation -/

theorem mem_updateBest {acc : List MatchCandidate} {c e : MatchCandidate}
    (h : e ∈ updateBest acc c) : e ∈ acc ∨ e = c := by
  unfold updateBest at h
  split at h
  · rcases List.mem_map.mp h with ⟨a, ha, hae⟩
    by_cases hc : a.movie_id = c.movie_id ∧ a.similarity < c.similarity
    · right
      rw [if_pos hc] at hae
      exact hae.symm
    · left
      rw [if_neg hc] at hae
      exact hae ▸ ha
  · rcases List.mem_append.mp h with h' | h'
    · exact Or.inl h'
    · exact Or.inr (List.mem_singleton.mp h')

theorem keys_updateBest_of_any {acc : List MatchCandidate} {c : MatchCandidate}
    (h : acc.any (fun e => e.movie_id = c.movie_id) = true) :
    (updateBest acc c).map (·.movie_id) = acc.map (·.movie_id) := by
  unfold updateBest
  rw [if_pos h, List.map_map]
  apply List.map_congr_left
  intro a _
  by_cases hc : a.movie_id = c.movie_id ∧ a.similarity < c.similarity
  · simp only [Function.comp_apply, if_pos hc]
    exact hc.1.symm
  · simp only [Function.comp_apply, if_neg hc]

theorem nodup_keys_updateBest {acc : List MatchCandidate} {c : MatchCandidate}
    (h : (acc.map (·.movie_id)).Nodup) :
    ((updateBest acc c).map (·.movie_id)).Nodup := by
  by_cases hany : acc.any (fun e => e.movie_id = c.movie_id) = true
  · rw [keys_updateBest_of_any hany]
    exact h
  · unfold updateBest
    rw [if_neg hany, List.map_append]
    simp only [List.map_cons, List.map_nil]
    rw [List.nodup_append]
    refine ⟨h, List.nodup_singleton _, ?_⟩
    intro k hk hk'
    rcases List.mem_map.mp hk with ⟨a, ha, hak⟩
    rw [List.mem_singleton] at hk'
    apply hany
    rw [List.any_eq_true]
    exact ⟨a, ha, by simp [hak ▸ hk']⟩

theorem dominates_updateBest_old {acc : List MatchCandidate}
    {c : MatchCandidate} {a : MatchCandidate} (ha : a ∈ acc) :
    ∃ e ∈ updateBest acc c,
      e.movie_id = a.movie_id ∧ a.similarity ≤ e.similarity := by
  unfold updateBest
  split
  · refine ⟨if a.movie_id = c.movie_id ∧ a.similarity < c.similarity then c
        else a, List.mem_map.mpr ⟨a, ha, rfl⟩, ?_⟩
    by_cases hc : a.movie_id = c.movie_id ∧ a.similarity < c.similarity
    · rw [if_pos hc]
      exact ⟨hc.1.symm, le_of_lt hc.2⟩
    · rw [if_neg hc]
      exact ⟨rfl, le_refl _⟩
  · exact ⟨a, List.mem_append.mpr (Or.inl ha), rfl, le_refl _⟩

theorem dominates_updateBest_new (acc : List MatchCandidate)
    (c : MatchCandidate) :
    ∃ e ∈ updateBest acc c,
      e.movie_id = c.movie_id ∧ c.similarity ≤ e.similarity := by
  unfold updateBest
  by_cases hany : acc.any (fun e => e.movie_id = c.movie_id) = true
  · rw [if_pos hany]
    rcases List.any_eq_true.mp hany with ⟨a, ha, hak⟩
    have hak' : a.movie_id = c.movie_id := by
      simpa using hak
    refine ⟨if a.movie_id = c.movie_id ∧ a.similarity < c.similarity then c
        else a, List.mem_map.mpr ⟨a, ha, rfl⟩, ?_⟩
    by_cases hc : a.movie_id = c.movie_id ∧ a.similarity < c.similarity
    · rw [if_pos hc]
      exact ⟨rfl, le_refl _⟩
    · rw [if_neg hc]
      refine ⟨hak', ?_⟩
      rcases not_and_or.mp hc with h' | h'
      · exact absurd hak' h'
      · exact le_of_not_lt h'
  · rw [if_neg hany]
    exact ⟨c, List.mem_append.mpr (Or.inr (List.mem_singleton.mpr rfl)),
      rfl, le_refl _⟩

theorem mem_foldl_updateBest {cands : List MatchCandidate} :
    ∀ {acc e}, e ∈ cands.foldl updateBest acc → e ∈ acc ∨ e ∈ cands := by
  induction cands with
  | nil => intro acc e h; exact Or.inl h
  | cons c rest ih =>
    intro acc e h
    rcases ih h with h' | h'
    · rcases mem_updateBest h' with h'' | h''
      · exact Or.inl h''
      · exact Or.inr (h'' ▸ List.mem_cons_self c rest)
    · exact Or.inr (List.mem_cons_of_mem c h')

theorem nodup_keys_foldl_updateBest {cands : List MatchCandidate} :
    ∀ {acc}, (acc.map (·.movie_id)).Nodup →
      ((cands.foldl updateBest acc).map (·.movie_id)).Nodup := by
  induction cands with
  | nil => intro acc h; exact h
  | cons c rest ih => intro acc h; exact ih (nodup_keys_updateBest h)

theorem dominates_foldl_updateBest_acc {cands : List MatchCandidate} :
    ∀ {acc a}, a ∈ acc →
      ∃ e ∈ cands.foldl updateBest acc,
        e.movie_id = a.movie_id ∧ a.similarity ≤ e.similarity := by
  induction cands with
  | nil => intro acc a ha; exact ⟨a, ha, rfl, le_refl _⟩
  | cons c rest ih =>
    intro acc a ha
    rcases @dominates_updateBest_old acc c a ha with ⟨e₁, he₁, hk₁, hs₁⟩
    rcases ih he₁ with ⟨e₂, he₂, hk₂, hs₂⟩
    exact ⟨e₂, he₂, hk₂.trans hk₁, hs₁.trans hs₂⟩

theorem dominates_foldl_updateBest {cands : List MatchCandidate} :
    ∀ {acc}, ∀ c ∈ cands,
      ∃ e ∈ cands.foldl updateBest acc,
        e.movie_id = c.movie_id ∧ c.similarity ≤ e.similarity := by
  induction cands with
  | nil => intro acc c hc; exact absurd hc (List.not_mem_nil c)
  | cons c₀ rest ih =>
    intro acc c hc
    rcases List.mem_cons.mp hc with h | h
    · subst h
      rcases dominates_updateBest_new acc c with ⟨e₁, he₁, hk₁, hs₁⟩
      rcases @dominates_foldl_updateBest_acc rest (updateBest acc c) e₁ he₁ with
        ⟨e₂, he₂, hk₂, hs₂⟩
      exact ⟨e₂, he₂, hk₂.trans hk₁, hs₁.trans hs₂⟩
    · exact ih c h

/-! ### Properties of the final maximum -/

theorem maxBySim_aux {l : List MatchCandidate} :
    ∀ {b₀ : MatchCandidate},
      ∃ b, l.foldl
          (fun best c =>
            match best with
            | none => some c
            | some b => if b.similarity < c.similarity then some c else some b)
          (some b₀) = some b
        ∧ (b = b₀ ∨ b ∈ l) ∧ b₀.similarity ≤ b.similarity
        ∧ ∀ e ∈ l, e.similarity ≤ b.similarity := by
  induction l with
  | nil =>
    intro b₀
    exact ⟨b₀, rfl, Or.inl rfl, le_refl _, fun e he => absurd he (List.not_mem_nil e)⟩
  | cons c rest ih =>
    intro b₀
    by_cases hlt : b₀.similarity < c.similarity
    · rcases @ih c with ⟨b, hb, hmem, hge, hall⟩
      refine ⟨b, by simpa [hlt] using hb, ?_, le_of_lt (lt_of_lt_of_le hlt hge), ?_⟩
      · rcases hmem with h | h
        · exact Or.inr (h ▸ List.mem_cons_self c rest)
        · exact Or.inr (List.mem_cons_of_mem c h)
      · intro e he
        rcases List.mem_cons.mp he with h | h
        · exact h ▸ hge
        · exact hall e h
    · rcases @ih b₀ with ⟨b, hb, hmem, hge, hall⟩
      refine ⟨b, by simpa [hlt] using hb, ?_, hge, ?_⟩
      · rcases hmem with h | h
        · exact Or.inl h
        · exact Or.inr (List.mem_cons_of_mem c h)
      · intro e he
        rcases List.mem_cons.mp he with h | h
        · exact h ▸ le_trans (le_of_not_lt hlt) hge
        · exact hall e h

theorem maxBySim_spec {l : List MatchCandidate} {b : MatchCandidate}
    (h : maxBySim l = some b) :
    b ∈ l ∧ ∀ e ∈ l, e.similarity ≤ b.similarity := by
  cases l with
  | nil => exact absurd h (by simp [maxBySim])
  | cons c rest =>
    rcases @maxBySim_aux rest c with ⟨b', hb', hmem, hge, hall⟩
    unfold maxBySim at h
    rw [List.foldl_cons] at h
    have hb : b = b' := by
      rw [hb'] at h
      exact (Option.some_injective _ h).symm
    subst hb
    constructor
    · rcases hmem with h' | h'
      · exact h' ▸ List.mem_cons_self c rest
      · exact List.mem_cons_of_mem c h'
    · intro e he
      rcases List.mem_cons.mp he with h' | h'
      · exact h' ▸ hge
      · exact hall e h'

/-! ### Properties of the face clustering -/

theorem bestCluster_aux {sim : List ℚ → List ℚ → ℚ} {e : List ℚ}
    {cls : List (String × List (List ℚ))} :
    ∀ {b₀ : Option String × ℚ},
      (cls.foldl
          (fun best cl =>
            let score := sim e (centroidOf cl.2)
            if best.2 < score then (some cl.1, score) else best) b₀ = b₀
        ∨ ∃ cl ∈ cls,
            cls.foldl
              (fun best cl =>
                let score := sim e (centroidOf cl.2)
                if best.2 < score then (some cl.1, score) else best) b₀
              = (some cl.1, sim e (centroidOf cl.2)))
      ∧ b₀.2 ≤ (cls.foldl
          (fun best cl =>
            let score := sim e (centroidOf cl.2)
            if best.2 < score then (some cl.1, score) else best) b₀).2
      ∧ ∀ cl ∈ cls,
          sim e (centroidOf cl.2) ≤ (cls.foldl
            (fun best cl =>
              let score := sim e (centroidOf cl.2)
              if best.2 < score then (some cl.1, score) else best) b₀).2 := by
  induction cls with
  | nil =>
    intro b₀
    exact ⟨Or.inl rfl, le_refl _, fun cl hcl => absurd hcl (List.not_mem_nil cl)⟩
  | cons c rest ih =>
    intro b₀
    rw [List.foldl_cons]
    by_cases hlt : b₀.2 < sim e (centroidOf c.2)
    · have hstep :
          (let score := sim e (centroidOf c.2)
           if b₀.2 < score then (some c.1, score) else b₀)
            = (some c.1, sim e (centroidOf c.2)) := by
        dsimp only
        rw [if_pos hlt]
      rw [hstep]
      rcases @ih (some c.1, sim e (centroidOf c.2)) with ⟨hmem, hge, hall⟩
      refine ⟨?_, le_of_lt (lt_of_lt_of_le hlt hge), ?_⟩
      · rcases hmem with h | ⟨cl, hcl, h⟩
        · exact Or.inr ⟨c, List.mem_cons_self c rest, h⟩
        · exact Or.inr ⟨cl, List.mem_cons_of_mem c hcl, h⟩
      · intro cl hcl
        rcases List.mem_cons.mp hcl with h | h
        · exact h ▸ hge
        · exact hall cl h
    · have hstep :
          (let score := sim e (centroidOf c.2)
           if b₀.2 < score then (some c.1, score) else b₀) = b₀ := by
        dsimp only
        rw [if_neg hlt]
      rw [hstep]
      rcases @ih b₀ with ⟨hmem, hge, hall⟩
      refine ⟨?_, hge, ?_⟩
      · rcases hmem with h | ⟨cl, hcl, h⟩
        · exact Or.inl h
        · exact Or.inr ⟨cl, List.mem_cons_of_mem c hcl, h⟩
      · intro cl hcl
        rcases List.mem_cons.mp hcl with h | h
        · exact h ▸ le_trans (le_of_not_lt hlt) hge
        · exact hall cl h

theorem bestCluster_spec {sim : List ℚ → List ℚ → ℚ} {e : List ℚ}
    {cls : List (String × List (List ℚ))} {l : String} {s : ℚ}
    (h : bestCluster sim e cls = (some l, s)) :
    (∃ vs, (l, vs) ∈ cls ∧ sim e (centroidOf vs) = s)
    ∧ (∀ cl ∈ cls, sim e (centroidOf cl.2) ≤ s) ∧ 0 ≤ s := by
  rcases @bestCluster_aux sim e cls ((none : Option String), 0) with
    ⟨hmem, hge, hall⟩
  unfold bestCluster at h
  rcases hmem with h' | ⟨cl, hcl, h'⟩
  · rw [h] at h'
    cases h'
  · rw [h] at h' hall hge
    have h1 : some l = some cl.1 ∧ s = sim e (centroidOf cl.2) :=
      ⟨congrArg Prod.fst h', congrArg Prod.snd h'⟩
    have hl : l = cl.1 := Option.some_injective _ h1.1
    exact ⟨⟨cl.2, by rw [hl]; exact hcl, h1.2.symm⟩, hall, hge⟩

theorem le_foldl_max_init (init : ℕ) (l : List ℕ) : init ≤ l.foldl max init := by
  induction l generalizing init with
  | nil => exact le_refl _
  | cons j js ih => exact (le_max_left init j).trans (ih (max init j))

theorem foldl_max_le_mem {i k : ℕ} {is : List ℕ} (h : k ∈ i :: is) :
    k ≤ is.foldl max i := by
  induction is generalizing i with
  | nil =>
    rcases List.mem_cons.mp h with h' | h'
    · exact h' ▸ le_refl _
    · exact absurd h' (List.not_mem_nil k)
  | cons j js ih =>
    rw [List.foldl_cons]
    rcases List.mem_cons.mp h with h' | h'
    · subst h'
      exact (le_max_left k j).trans (le_foldl_max_init _ _)
    · rcases List.mem_cons.mp h' with h'' | h''
      · subst h''
        exact (le_max_right i k).trans (le_foldl_max_init _ _)
      · exact ih (List.mem_cons_of_mem _ h'')

theorem labelSuffix_lt_nextClusterIndex {labels : List String} {lab : String}
    {k : ℕ} (hmem : lab ∈ labels) (hk : labelSuffix lab = some k) :
    k < nextClusterIndex labels := by
  unfold nextClusterIndex
  have hkin : k ∈ labels.filterMap labelSuffix :=
    List.mem_filterMap.mpr ⟨lab, hmem, hk⟩
  cases hfm : labels.filterMap labelSuffix with
  | nil => rw [hfm] at hkin; exact absurd hkin (List.not_mem_nil k)
  | cons i is =>
    rw [hfm] at hkin
    exact Nat.lt_succ_of_le (foldl_max_le_mem hkin)

/-! ### Properties of the pipeline status writes -/

theorem LogBounded.rfl {db : DB} : LogBounded db db :=
  fun _ hp => Or.inl hp

theorem LogBounded.trans {db1 db2 db3 : DB} (h1 : LogBounded db1 db2)
    (h2 : LogBounded db2 db3) : LogBounded db1 db3 := by
  intro p hp
  rcases h2 p hp with h | h
  · exact h1 p h
  · exact Or.inr h

theorem logBounded_commitFrame {db : DB} {f : FrameRec}
    (hst : f.status ∈ pipelineStatuses) : LogBounded db (db.commitFrame f) := by
  intro p hp
  unfold DB.commitFrame at hp
  dsimp only at hp
  rcases List.mem_append.mp hp with h | h
  · exact Or.inl h
  · right
    have : p = (f.id, f.status) := List.mem_singleton.mp h
    rw [this]
    exact hst

theorem logBounded_markFailure {db : DB} {fid : ℕ} {r : String} :
    LogBounded db (markFailure db fid r) := by
  unfold markFailure
  split
  · exact LogBounded.rfl
  · exact logBounded_commitFrame (by show "failed" ∈ pipelineStatuses; decide)

theorem logBounded_createFrameRow {db : DB} {fp : String} {mid : Option ℕ}
    {su sg : Option String} :
    LogBounded db (createFrameRow db fp mid su sg).1 := by
  intro p hp
  unfold createFrameRow at hp
  dsimp only at hp
  rcases List.mem_append.mp hp with h' | h'
  · exact Or.inl h'
  · right
    have hp2 : p = (db.nextId, "new") := List.mem_singleton.mp h'
    rw [hp2]
    show "new" ∈ pipelineStatuses
    decide

theorem logBounded_importFrame {env : Env} {db : DB} {fp : String}
    {mid : Option ℕ} {su sg : Option String} {db1 : DB} {fid : ℕ}
    (h : importFrame env db fp mid su sg = .ok (db1, fid)) :
    LogBounded db db1 := by
  unfold importFrame at h
  split at h
  · cases h
  · split at h
    next m =>
      split at h
      · have h1 : (createFrameRow db fp (some m) su sg) = (db1, fid) :=
          (Except.ok.injEq _ _).mp h
        have hdb : db1 = (createFrameRow db fp (some m) su sg).1 := by rw [h1]
        rw [hdb]
        exact logBounded_createFrameRow
      · cases h
    next =>
      have h1 : (createFrameRow db fp none su sg) = (db1, fid) :=
        (Except.ok.injEq _ _).mp h
      have hdb : db1 = (createFrameRow db fp none su sg).1 := by rw [h1]
      rw [hdb]
      exact logBounded_createFrameRow

theorem logBounded_embedFrame {env : Env} {db : DB} {fid : ℕ} :
    LogBounded db (embedFrame env db fid).2 := by
  unfold embedFrame
  split
  · exact LogBounded.rfl
  · split
    · exact LogBounded.rfl
    · exact logBounded_commitFrame (by show "embedded" ∈ pipelineStatuses; decide)

theorem logBounded_tagFrame {db : DB} {fid : ℕ} :
    LogBounded db (tagFrame db fid).2 := by
  unfold tagFrame
  split
  · exact LogBounded.rfl
  · split
    · exact LogBounded.rfl
    · split
      · exact logBounded_commitFrame (by show "tagged" ∈ pipelineStatuses; decide)
      · exact LogBounded.rfl

theorem logBounded_detectSceneAttributes {env : Env} {db : DB} {fid : ℕ} :
    LogBounded db (detectSceneAttributes env db fid).2 := by
  unfold detectSceneAttributes
  split
  · exact LogBounded.rfl
  · split
    · exact logBounded_markFailure
    · exact LogBounded.rfl
    · dsimp only
      split
      · exact LogBounded.rfl
      · intro p hp
        exact logBounded_commitFrame
          (by show "scene_annotated" ∈ pipelineStatuses; decide) p hp

theorem logBounded_detectActorFaces {sim : List ℚ → List ℚ → ℚ} {env : Env}
    {db : DB} {fid : ℕ} : LogBounded db (detectActorFaces sim env db fid).2 := by
  unfold detectActorFaces
  split
  · exact LogBounded.rfl
  · split
    · exact LogBounded.rfl
    · intro p hp
      exact logBounded_commitFrame
        (by show "actors_detected" ∈ pipelineStatuses; decide) p hp

theorem logBounded_matchFrameTask {db : DB} {fid : ℕ} :
    LogBounded db (matchFrameTask db fid).2 := by
  unfold matchFrameTask
  split
  · exact LogBounded.rfl
  · dsimp only
    split
    · exact logBounded_commitFrame (by show "matched" ∈ pipelineStatuses; decide)
    · exact logBounded_commitFrame
        (by show "unmatched" ∈ pipelineStatuses; decide)

theorem logBounded_ingestAttempt {sim : List ℚ → List ℚ → ℚ} {env : Env}
    {db : DB} {a : IngestArgs} :
    LogBounded db (ingestAttempt sim env db a).2 := by
  unfold ingestAttempt
  split
  · exact LogBounded.rfl
  next db1 fid heq =>
    have h1 : LogBounded db db1 :=
      @logBounded_importFrame env db a.file_path a.movie_id a.storage_uri
        a.signed_url db1 fid heq
    split
    next e db2 hemb =>
      have h2 : LogBounded db1 db2 := by
        have hx := @logBounded_embedFrame env db1 fid
        rw [hemb] at hx
        exact hx
      exact h1.trans (h2.trans logBounded_markFailure)
    next u db2 hemb =>
      have h2 : LogBounded db1 db2 := by
        have hx := @logBounded_embedFrame env db1 fid
        rw [hemb] at hx
        exact hx
      split
      · split
        next e db3 hmt =>
          have h3 : LogBounded db2 db3 := by
            have hx := @logBounded_matchFrameTask db2 fid
            rw [hmt] at hx
            exact hx
          exact h1.trans (h2.trans (h3.trans logBounded_markFailure))
        next u db3 hmt =>
          have h3 : LogBounded db2 db3 := by
            have hx := @logBounded_matchFrameTask db2 fid
            rw [hmt] at hx
            exact hx
          exact h1.trans (h2.trans h3)
      · split
        next e db3 htag =>
          have h3 : LogBounded db2 db3 := by
            have hx := @logBounded_tagFrame db2 fid
            rw [htag] at hx
            exact hx
          exact h1.trans (h2.trans (h3.trans logBounded_markFailure))
        next u db3 htag =>
          have h3 : LogBounded db2 db3 := by
            have hx := @logBounded_tagFrame db2 fid
            rw [htag] at hx
            exact hx
          split
          next e db4 hsc =>
            have h4 : LogBounded db3 db4 := by
              have hx := @logBounded_detectSceneAttributes env db3 fid
              rw [hsc] at hx
              exact hx
            exact h1.trans (h2.trans (h3.trans (h4.trans logBounded_markFailure)))
          next u db4 hsc =>
            have h4 : LogBounded db3 db4 := by
              have hx := @logBounded_detectSceneAttributes env db3 fid
              rw [hsc] at hx
              exact hx
            split
            next e db5 hac =>
              have h5 : LogBounded db4 db5 := by
                have hx := @logBounded_detectActorFaces sim env db4 fid
                rw [hac] at hx
                exact hx
              exact h1.trans (h2.trans (h3.trans (h4.trans
                (h5.trans logBounded_markFailure))))
            next u db5 hac =>
              have h5 : LogBounded db4 db5 := by
                have hx := @logBounded_detectActorFaces sim env db4 fid
                rw [hac] at hx
                exact hx
              split
              · exact h1.trans (h2.trans (h3.trans (h4.trans
                  (h5.trans (logBounded_commitFrame
                    (by show "tagged" ∈ pipelineStatuses; decide))))))
              · exact h1.trans (h2.trans (h3.trans (h4.trans h5)))

theorem logBounded_ingestPipeline {sim : List ℚ → List ℚ → ℚ} {env : Env}
    {a : IngestArgs} :
    ∀ (n : ℕ) (db : DB), LogBounded db (ingestPipeline sim env db a n).2 := by
  intro n
  induction n with
  | zero => intro db; exact logBounded_ingestAttempt
  | succ k ih =>
    intro db
    unfold ingestPipeline
    cases hat : ingestAttempt sim env db a with
    | mk r db' =>
      have h1 : LogBounded db db' := by
        have := @logBounded_ingestAttempt sim env db a
        rw [hat] at this
        exact this
      cases r with
      | ok fid => exact h1
      | error e => exact h1.trans (ih db')

/-! ### Properties of the lighting selection -/

theorem insertDescBySnd_perm (p : String × ℚ) (l : List (String × ℚ)) :
    List.Perm (insertDescBySnd p l) (p :: l) := by
  induction l with
  | nil => exact List.Perm.refl _
  | cons q rest ih =>
    unfold insertDescBySnd
    by_cases h : q.2 ≤ p.2
    · rw [if_pos h]
    · rw [if_neg h]
      exact ((ih.cons q).trans (List.Perm.swap p q rest)).symm.symm

theorem sortDescBySnd_perm (l : List (String × ℚ)) :
    List.Perm (sortDescBySnd l) l := by
  induction l with
  | nil => exact List.Perm.refl _
  | cons p rest ih =>
    exact (insertDescBySnd_perm p (sortDescBySnd rest)).trans (ih.cons p)

theorem insertDescBySnd_sorted {p : String × ℚ} {l : List (String × ℚ)}
    (h : l.Sorted fun a b => b.2 ≤ a.2) :
    (insertDescBySnd p l).Sorted fun a b => b.2 ≤ a.2 := by
  induction l with
  | nil => simp [insertDescBySnd]
  | cons q rest ih =>
    rw [List.sorted_cons] at h
    unfold insertDescBySnd
    by_cases hq : q.2 ≤ p.2
    · rw [if_pos hq]
      rw [List.sorted_cons]
      refine ⟨?_, List.sorted_cons.mpr h⟩
      intro b hb
      rcases List.mem_cons.mp hb with h' | h'
      · exact h' ▸ hq
      · exact (h.1 b h').trans hq
    · rw [if_neg hq]
      rw [List.sorted_cons]
      refine ⟨?_, ih h.2⟩
      intro b hb
      have hb' : b ∈ p :: rest := (insertDescBySnd_perm p rest).mem_iff.mp hb
      rcases List.mem_cons.mp hb' with h' | h'
      · exact h' ▸ le_of_lt (lt_of_not_le hq)
      · exact h.1 b h'

theorem sortDescBySnd_sorted (l : List (String × ℚ)) :
    (sortDescBySnd l).Sorted fun a b => b.2 ≤ a.2 := by
  induction l with
  | nil => simp [sortDescBySnd]
  | cons p rest ih => exact insertDescBySnd_sorted ih

theorem takeWhile_eq_filter_of_sortedDesc {t : ℚ} :
    ∀ {l : List (String × ℚ)}, l.Sorted (fun a b => b.2 ≤ a.2) →
      (l.takeWhile fun p => t ≤ p.2) = l.filter fun p => t ≤ p.2 := by
  intro l
  induction l with
  | nil => intro _; rfl
  | cons q rest ih =>
    intro h
    rw [List.sorted_cons] at h
    by_cases hq : t ≤ q.2
    · have hq' : (decide (t ≤ q.2)) = true := decide_eq_true hq
      rw [List.takeWhile_cons, List.filter_cons]
      simp only [hq', if_true, ih h.2]
    · have hq' : (decide (t ≤ q.2)) = false := decide_eq_false hq
      rw [List.takeWhile_cons, List.filter_cons]
      simp only [hq', Bool.false_eq_true, if_false]
      symm
      rw [List.filter_eq_nil_iff]
      intro b hb
      simp only [decide_eq_true_eq]
      intro hbt
      exact hq (hbt.trans (h.1 b hb))

section RatEval

attribute [local semireducible] Rat.add Rat.sub Rat.mul Rat.inv

/-- C1: `FilmMatcher.match_movie` keeps only the single highest-similarity
candidate per film (the consolidated finalists contain no two entries for the
same film, each finalist is one of the scored candidates, and each candidate
is dominated by the finalist of its film), accepts a match exactly when the
best finalist's confidence `round((sim+1)/2, 4)` meets the minimum confidence
(the accepted result carries that best finalist's film and confidence, and a
best finalist below the minimum yields no match), and on the worked corpus —
film 100 at similarity 0.9 and film 200 with frames at 0.95 and 0.80 — returns
film 200 with confidence 0.975. -/
theorem match_movie_consolidates_and_thresholds :
    (∀ cands : List MatchCandidate,
        ((consolidate cands).map (·.movie_id)).Nodup
      ∧ (∀ e ∈ consolidate cands, e ∈ cands)
      ∧ ∀ c ∈ cands, ∃ e ∈ consolidate cands,
          e.movie_id = c.movie_id ∧ c.similarity ≤ e.similarity)
  ∧ (∀ minConf emb rows r, matchMovie minConf emb rows = some r →
      minConf ≤ r.confidence
      ∧ ∃ t, normGuard (emb.getD []) = some t ∧
          ∃ b ∈ consolidate (candidatesOf t rows),
            r.movie_id = b.movie_id ∧ r.confidence = b.similarity
            ∧ ∀ c ∈ candidatesOf t rows, c.similarity ≤ b.similarity)
  ∧ (∀ minConf emb rows t b, normGuard (emb.getD []) = some t →
        maxBySim (consolidate (candidatesOf t rows)) = some b →
        b.similarity < minConf → matchMovie minConf emb rows = none)
  ∧ matchMovie (2/10) (some [1, 0])
      [⟨1, 100, some [9/10, 0], none⟩,
       ⟨2, 200, some [19/20, 0], none⟩,
       ⟨3, 200, some [4/5, 0], none⟩]
      = some ⟨200, 975/1000, none, "2"⟩ := by
  refine ⟨?_, ?_, ?_, by decide⟩
  · intro cands
    refine ⟨nodup_keys_foldl_updateBest (by simp), ?_, ?_⟩
    · intro e he
      rcases mem_foldl_updateBest he with h | h
      · exact absurd h (List.not_mem_nil e)
      · exact h
    · intro c hc
      exact dominates_foldl_updateBest c hc
  · intro minConf emb rows r h
    unfold matchMovie at h
    cases hg : normGuard (emb.getD []) with
    | none => rw [hg] at h; cases h
    | some t =>
      rw [hg] at h
      dsimp only at h
      by_cases hcn : candidatesOf t rows = []
      · rw [if_pos hcn] at h; cases h
      · rw [if_neg hcn] at h
        cases hm : maxBySim (consolidate (candidatesOf t rows)) with
        | none => rw [hm] at h; dsimp only at h; cases h
        | some b =>
          rw [hm] at h
          dsimp only at h
          by_cases hlt : b.similarity < minConf
          · rw [if_pos hlt] at h; cases h
          · rw [if_neg hlt] at h
            have hr : r =
                ⟨b.movie_id, b.similarity, b.captured_at, toString b.frame_id⟩ :=
              (Option.some_injective _ h).symm
            subst hr
            rcases maxBySim_spec hm with ⟨hbmem, hball⟩
            refine ⟨le_of_not_lt hlt, t, rfl, b, hbmem, rfl, rfl, ?_⟩
            intro c hc
            rcases dominates_foldl_updateBest c hc with ⟨e, he, _, hce⟩
            exact hce.trans (hball e he)
  · intro minConf emb rows t b hg hm hlt
    unfold matchMovie
    rw [hg]
    dsimp only
    by_cases hcn : candidatesOf t rows = []
    · rw [if_pos hcn]
    · rw [if_neg hcn, hm]
      dsimp only
      rw [if_pos hlt]

/-- Closed witness for `match_movie_consolidates_and_thresholds`: its
acceptance clause applied to the worked three-row corpus. -/
theorem match_movie_consolidates_and_thresholds_witness :
    (2/10 : ℚ) ≤ 975/1000 :=
  (match_movie_consolidates_and_thresholds.2.1 (2/10) (some [1, 0])
      [⟨1, 100, some [9/10, 0], none⟩,
       ⟨2, 200, some [19/20, 0], none⟩,
       ⟨3, 200, some [4/5, 0], none⟩]
      ⟨200, 975/1000, none, "2"⟩
      match_movie_consolidates_and_thresholds.2.2.2).1

/-- C4: the lighting classifier returns exactly the labels whose final score
is at least `max(0.2, 0.85 * best_score)`, in descending score order; for the
per-label scores [0.90, 0.88, 0.2, 0.1, 0.1, 0.1, 0.1, 0.1] the threshold is
0.765 and exactly the labels scoring 0.90 (`hard_light`) and 0.88
(`soft_light`) are returned. -/
theorem lighting_selection_threshold :
    (∀ scored : List (String × ℚ),
        List.Perm (selectLighting scored)
          (scored.filter fun p =>
            max (2/10) (listMaxQ (scored.map (·.2)) * (85/100)) ≤ p.2)
      ∧ (selectLighting scored).Sorted fun a b => b.2 ≤ a.2)
  ∧ max (2/10 : ℚ)
      (listMaxQ [9/10, 22/25, 1/5, 1/10, 1/10, 1/10, 1/10, 1/10] * (85/100))
      = 153/200
  ∧ scoreAttribute "lighting" [] []
      (lightingLabels.zip [9/10, 22/25, 1/5, 1/10, 1/10, 1/10, 1/10, 1/10])
      = [⟨"lighting", "hard_light", 9/10⟩,
         ⟨"lighting", "soft_light", 22/25⟩] := by
  refine ⟨?_, by decide, by decide⟩
  intro scored
  unfold selectLighting
  dsimp only
  constructor
  · rw [takeWhile_eq_filter_of_sortedDesc (sortDescBySnd_sorted scored)]
    exact (sortDescBySnd_perm scored).filter _
  · exact List.Pairwise.sublist (List.takeWhile_sublist _)
      (sortDescBySnd_sorted scored)

/-- C5: for each label, when a prototype exists and its dimensionality matches
the frame embedding's, the final score is `0.6 * text_score +
0.4 * prototype_similarity`; when the dimensions mismatch the blend is skipped
and the raw zero-shot text score is kept, and the classification still
produces a prediction for the attribute (and the label keeps its entry in the
blended score vector). -/
theorem prototype_blend_and_dimension_skip :
    (∀ imgFeat protoMap label (cs : ℚ) pv cnt,
        lookupProto protoMap label = some (pv, cnt) →
          (pv.length = imgFeat.length →
             blendScore imgFeat protoMap label cs
               = 6/10 * cs + 4/10 * dot imgFeat pv)
        ∧ (pv.length ≠ imgFeat.length →
             blendScore imgFeat protoMap label cs = cs))
  ∧ (∀ imgFeat protoMap label (cs : ℚ),
        lookupProto protoMap label = none →
          blendScore imgFeat protoMap label cs = cs)
  ∧ (∀ attrName imgFeat protoMap (pairs : List (String × ℚ)),
        attrName ≠ "lighting" → pairs ≠ [] →
          scoreAttribute attrName imgFeat protoMap pairs ≠ [])
  ∧ (∀ imgFeat protoMap (pairs : List (String × ℚ)), ∀ p ∈ pairs,
        (p.1, blendScore imgFeat protoMap p.1 p.2)
          ∈ finalScores imgFeat protoMap pairs) := by
  refine ⟨?_, ?_, ?_, ?_⟩
  · intro imgFeat protoMap label cs pv cnt h
    constructor
    · intro hlen
      unfold blendScore
      rw [h]
      dsimp only
      rw [if_pos hlen]
    · intro hlen
      unfold blendScore
      rw [h]
      dsimp only
      rw [if_neg hlen]
  · intro imgFeat protoMap label cs h
    unfold blendScore
    rw [h]
  · intro attrName imgFeat protoMap pairs hattr hne
    unfold scoreAttribute
    rw [if_neg hattr]
    cases pairs with
    | nil => exact absurd rfl hne
    | cons q rest =>
      dsimp only [finalScores, List.map_cons, argmaxBySnd]
      simp
  · intro imgFeat protoMap pairs p hp
    unfold finalScores
    exact List.mem_map.mpr ⟨p, hp, rfl⟩

/-- Closed witness for `prototype_blend_and_dimension_skip`: a matching-
dimension prototype blends 60/40, a mismatched one keeps the text score, and a
non-lighting attribute still yields a prediction. -/
theorem prototype_blend_and_dimension_skip_witness :
    blendScore [1, 0] [("day", ([1, 0], 2))] "day" (1/2)
        = 6/10 * (1/2) + 4/10 * dot [1, 0] [1, 0]
  ∧ blendScore [1, 0] [("day", ([1], 2))] "day" (1/2) = 1/2
  ∧ scoreAttribute "time_of_day" [1, 0] [] [("day", 1/2), ("night", 1/4)] ≠ [] :=
  ⟨(prototype_blend_and_dimension_skip.1 [1, 0] [("day", ([1, 0], 2))] "day"
      (1/2) [1, 0] 2 (by decide)).1 (by decide),
   (prototype_blend_and_dimension_skip.1 [1, 0] [("day", ([1], 2))] "day"
      (1/2) [1] 2 (by decide)).2 (by decide),
   prototype_blend_and_dimension_skip.2.2.1 "time_of_day" [1, 0] []
      [("day", 1/2), ("night", 1/4)] (by decide) (by decide)⟩

/-- C3: an unknown face whose best centroid similarity reaches the clustering
threshold is assigned that best cluster's existing label with track_status
`tracked` (the selected label is an existing cluster's and its score dominates
every cluster's); otherwise it receives the freshly minted label, track_status
`new_track`, where the minted index exceeds every existing `unknown-N` suffix
and is 1 when none exist.  Concretely, with `unknown-1` holding F1's face, an
F2 face at similarity 0.6 ≥ 0.58 is tracked as `unknown-1`, and one at 0.5 <
0.58 creates `unknown-2`. -/
theorem unknown_face_clustering_threshold :
    (∀ sim thr clusters (d : DetectionIn) e l s,
        d.cast_member_id = none → d.embedding = some e → e ≠ [] →
        bestCluster sim e clusters = (some l, s) → l ≠ "" → thr ≤ s →
          (clusterOne sim thr clusters d).1 = ("tracked", l)
          ∧ (∃ vs, (l, vs) ∈ clusters ∧ sim e (centroidOf vs) = s)
          ∧ ∀ cl ∈ clusters, sim e (centroidOf cl.2) ≤ s)
  ∧ (∀ sim thr clusters (d : DetectionIn) e,
        d.cast_member_id = none → d.embedding = some e → e ≠ [] →
        (bestCluster sim e clusters).2 < thr →
          (clusterOne sim thr clusters d).1
            = ("new_track", nextClusterLabel (clusters.map (·.1))))
  ∧ (∀ labels lab k, lab ∈ labels → labelSuffix lab = some k →
        k < nextClusterIndex labels)
  ∧ (∀ labels, labels.filterMap labelSuffix = [] → nextClusterIndex labels = 1)
  ∧ nextClusterLabel ["unknown-1"] = "unknown-2"
  ∧ clusterUnknownFaces dot (29/50) [("unknown-1", [[1, 0]])]
      [⟨none, some [3/5, 4/5]⟩] = [("tracked", "unknown-1")]
  ∧ clusterUnknownFaces dot (29/50) [("unknown-1", [[1, 0]])]
      [⟨none, some [1/2, 0]⟩] = [("new_track", "unknown-2")] := by
  refine ⟨?_, ?_, ?_, ?_, by decide, by decide, by decide⟩
  · intro sim thr clusters d e l s hc he hne hb hl hthr
    have hcl := bestCluster_spec hb
    refine ⟨?_, hcl.1, hcl.2.1⟩
    unfold clusterOne
    rw [if_neg (by simp [hc, he])]
    rw [he]
    dsimp only [Option.getD]
    rw [if_neg hne, hb]
    dsimp only
    rw [if_pos ⟨hl, hthr⟩]
  · intro sim thr clusters d e hc he hne hlt
    unfold clusterOne
    rw [if_neg (by simp [hc, he])]
    rw [he]
    dsimp only [Option.getD]
    rw [if_neg hne]
    cases hb : bestCluster sim e clusters with
    | mk bl s =>
      rw [hb] at hlt
      cases bl with
      | none => rfl
      | some l =>
        dsimp only
        rw [if_neg (fun hcond => absurd hcond.2 (not_le.mpr hlt))]
  · intro labels lab k hmem hk
    exact labelSuffix_lt_nextClusterIndex hmem hk
  · intro labels hfm
    unfold nextClusterIndex
    rw [hfm]

/-- Closed witness for `unknown_face_clustering_threshold`: the tracked and
new-track branches at the F1/F2 scenario. -/
theorem unknown_face_clustering_threshold_witness :
    (clusterOne dot (29/50) [("unknown-1", [[1, 0]])]
        ⟨none, some [3/5, 4/5]⟩).1 = ("tracked", "unknown-1")
  ∧ (clusterOne dot (29/50) [("unknown-1", [[1, 0]])]
        ⟨none, some [1/2, 0]⟩).1
      = ("new_track", nextClusterLabel ["unknown-1"]) :=
  ⟨(unknown_face_clustering_threshold.1 dot (29/50)
      [("unknown-1", [[1, 0]])] ⟨none, some [3/5, 4/5]⟩ [3/5, 4/5]
      "unknown-1" (3/5) rfl rfl (by decide) (by decide) (by decide)
      (by decide)).1,
   by
    have h := unknown_face_clustering_threshold.2.1 dot (29/50)
      [("unknown-1", [[1, 0]])] ⟨none, some [1/2, 0]⟩ [1/2, 0]
      rfl rfl (by decide) (by decide)
    simpa using h⟩

/-- C10: `_persist_scene_attributes` skips predictions whose confidence is
`None`; a prediction whose confidence is below the 0.2 minimum is stored with
value `"unknown"` while its (3-decimal-rounded) confidence is still recorded;
predictions at or above the minimum keep their value. -/
theorem persist_scene_attributes_below_threshold :
    (∀ frameId (preds : List ScenePred),
        persistSceneAttributesPy frameId (2/10) (preds.map PyObj.pred)
          = .ok (preds.filterMap fun p =>
              p.confidence.map fun c =>
                ⟨frameId, p.attr,
                  if 2/10 ≤ c then p.value else "unknown", roundTo 3 c⟩))
  ∧ (∀ frameId (p : ScenePred) c, p.confidence = some c → c < 2/10 →
        persistSceneAttributesPy frameId (2/10) [PyObj.pred p]
          = .ok [⟨frameId, p.attr, "unknown", roundTo 3 c⟩])
  ∧ (∀ frameId (p : ScenePred), p.confidence = none →
        persistSceneAttributesPy frameId (2/10) [PyObj.pred p] = .ok []) := by
  refine ⟨?_, ?_, ?_⟩
  · intro frameId preds
    induction preds with
    | nil => rfl
    | cons p rest ih =>
      cases hc : p.confidence with
      | none =>
        simp only [List.map_cons, persistSceneAttributesPy, hc,
          List.filterMap_cons, Option.map, ih]
      | some c =>
        simp only [List.map_cons, persistSceneAttributesPy, hc,
          List.filterMap_cons, Option.map, ih, Except.map]
  · intro frameId p c hc hlt
    simp only [persistSceneAttributesPy, hc, Except.map]
    rw [if_neg (not_le.mpr hlt)]
  · intro frameId p hc
    simp only [persistSceneAttributesPy, hc]

/-- Closed witness for `persist_scene_attributes_below_threshold`: a 0.1-
confidence prediction is stored as `"unknown"` with confidence 0.1, and a
`None`-confidence prediction is not stored. -/
theorem persist_scene_attributes_below_threshold_witness :
    persistSceneAttributesPy 7 (2/10)
        [PyObj.pred ⟨"time_of_day", "night", some (1/10)⟩]
      = .ok [⟨7, "time_of_day", "unknown", roundTo 3 (1/10)⟩]
  ∧ persistSceneAttributesPy 7 (2/10)
        [PyObj.pred ⟨"time_of_day", "night", none⟩] = .ok [] :=
  ⟨persist_scene_attributes_below_threshold.2.1 7
      ⟨"time_of_day", "night", some (1/10)⟩ (1/10) rfl (by decide),
   persist_scene_attributes_below_threshold.2.2 7
      ⟨"time_of_day", "night", none⟩ rfl⟩

/-- C9 (code bug): `detect_scene_attributes` can never replace a frame's
scene-attribute rows — `predict_scene_attributes` returns a
`(predictions, embedding)` pair, `_persist_scene_attributes` iterates that
pair, and the first element (a `list`) has no `confidence` attribute, so the
task always raises `AttributeError`; its session (including the idempotency
delete) rolls back and the database is left unchanged. -/
theorem detect_scene_attributes_always_raises :
    (∀ (preds : List ScenePred) (emb : Option (List ℚ)) fid minConf,
        persistSceneAttributesPy fid minConf
          [PyObj.predList preds, PyObj.embList emb]
          = .error "AttributeError: 'list' object has no attribute 'confidence'")
  ∧ (∀ env db fid f, db.findFrame fid = some f →
        materializeFrame env f = .ok () →
          detectSceneAttributes env db fid
            = (.error (.attrErr
                "AttributeError: 'list' object has no attribute 'confidence'"),
               db)) := by
  constructor
  · intro preds emb fid minConf
    rfl
  · intro env db fid f hf hm
    unfold detectSceneAttributes
    rw [hf]
    dsimp only
    rw [hm]
    rfl

/-- Closed witness for `detect_scene_attributes_always_raises`: the stage
fails and changes nothing on a concrete embedded frame. -/
theorem detect_scene_attributes_always_raises_witness :
    detectSceneAttributes exEnv exDB2 1
      = (.error (.attrErr
          "AttributeError: 'list' object has no attribute 'confidence'"),
         exDB2) :=
  detect_scene_attributes_always_raises.2 exEnv exDB2 1 exFrame
    (by decide) rfl

/-- Counterexample to C2: a film-known ingest run on a fully materializable
frame commits only the statuses `new`, `embedded`, `tagged`, `failed` across
its four attempts; the frame ends `failed` with a failure reason, and no
committed status is ever `analyzed` (nor `scene_annotated` or
`actors_detected`, since the scene stage always raises). -/
theorem pipeline_film_known_counterexample :
    (ingestPipeline dot exEnv exDB ⟨"frames/f1.jpg", some 5, none, none⟩
        3).2.statusLog
      = [(1, "new"), (1, "embedded"), (1, "tagged"), (1, "failed"),
         (2, "new"), (2, "embedded"), (2, "tagged"), (2, "failed"),
         (3, "new"), (3, "embedded"), (3, "tagged"), (3, "failed"),
         (4, "new"), (4, "embedded"), (4, "tagged"), (4, "failed")]
  ∧ ((ingestPipeline dot exEnv exDB ⟨"frames/f1.jpg", some 5, none, none⟩
        3).2.findFrame 1).map (fun f => (f.status, f.failure_reason.isSome))
      = some ("failed", true)
  ∧ ¬ ∃ p ∈ (ingestPipeline dot exEnv exDB
        ⟨"frames/f1.jpg", some 5, none, none⟩ 3).2.statusLog,
      p.2 = "analyzed" := by
  refine ⟨by decide, by decide, by decide⟩

/-- C2 amended: the ingest pipeline never persists status `analyzed` — every
status it commits is one of `new`, `embedded`, `tagged`, `matched`,
`unmatched`, `scene_annotated`, `actors_detected`, `failed` (and on the
film-known branch the final successful write would set `tagged`; with the
scene-stage bug the branch in fact ends `failed`). -/
theorem pipeline_never_sets_analyzed :
    "analyzed" ∉ pipelineStatuses
  ∧ ∀ sim env (db : DB) (a : IngestArgs) n,
      ∀ p ∈ (ingestPipeline sim env db a n).2.statusLog,
        p ∈ db.statusLog ∨ p.2 ∈ pipelineStatuses :=
  ⟨by decide, fun _ _ db _ n => logBounded_ingestPipeline n db⟩

/-- Closed witness for `pipeline_never_sets_analyzed`: the first committed
entry of the concrete film-known run is covered by the status bound. -/
theorem pipeline_never_sets_analyzed_witness :
    ((1, "new") : ℕ × String) ∈ exDB.statusLog
    ∨ ((1, "new") : ℕ × String).2 ∈ pipelineStatuses :=
  pipeline_never_sets_analyzed.2 dot exEnv exDB
    ⟨"frames/f1.jpg", some 5, none, none⟩ 3 (1, "new") (by decide)

/-- C7 amended: ingesting a frame whose storage URI does not resolve and
whose path is not local fails during `import_frame`, before any `Frame` row
is created: the `ValueError` escapes ahead of the `_mark_failure`-guarded
section, every retry fails identically, and the database is left exactly as
it was — no frame row (hence no `status='failed'`/`failure_reason` anywhere)
and zero SceneAttribute/ActorDetection rows. -/
theorem unresolvable_uri_fails_before_import :
    ∀ sim env (db : DB) (a : IngestArgs) n u,
      a.file_path ∉ env.localFiles → a.storage_uri = some u →
      u ∉ env.resolvableURIs →
      ingestPipeline sim env db a n
        = (.error (.valueErr ("Unsupported storage URI: " ++ u)), db) := by
  intro sim env db a n u hfp hsu hu
  have hres : resolveImportContent env a.file_path a.storage_uri a.signed_url
      = .error (.valueErr ("Unsupported storage URI: " ++ u)) := by
    unfold resolveImportContent ensureLocalCopy
    rw [hsu, if_neg hfp]
    dsimp only
    rw [if_neg hu]
  have himp : ∀ db' : DB,
      importFrame env db' a.file_path a.movie_id a.storage_uri a.signed_url
        = .error (.valueErr ("Unsupported storage URI: " ++ u)) := by
    intro db'
    unfold importFrame
    rw [hres]
  have hat : ∀ db' : DB, ingestAttempt sim env db' a
      = (.error (.valueErr ("Unsupported storage URI: " ++ u)), db') := by
    intro db'
    unfold ingestAttempt
    rw [himp db']
  induction n with
  | zero => exact hat db
  | succ k ih =>
    unfold ingestPipeline
    rw [hat db]
    exact ih

/-- Counterexample to C7 as stated: on an unresolvable storage URI with no
local path, the whole retried pipeline leaves the store untouched — there is
no frame row at all, so no row carries `status='failed'` or a
`failure_reason` (and trivially zero SceneAttribute/ActorDetection rows). -/
theorem unresolvable_uri_counterexample :
    ingestPipeline dot exEnv exDB
        ⟨"missing.jpg", some 5, some "s3://frames/abc", none⟩ 3
      = (.error (.valueErr "Unsupported storage URI: s3://frames/abc"), exDB)
  ∧ exDB.frames = [] ∧ exDB.sceneAttrs = [] ∧ exDB.actorDets = []
  ∧ ¬ ∃ f ∈ (ingestPipeline dot exEnv exDB
        ⟨"missing.jpg", some 5, some "s3://frames/abc", none⟩ 3).2.frames,
      f.status = "failed" := by
  refine ⟨rfl, by decide, by decide, by decide, by decide⟩

set_option maxRecDepth 8000 in
/-- C6 (code bug): the deterministic content-derived fallback of the
Embedding Engine does not always return unit vectors.  On a 1×1 all-black
image the pre-normalization vector is all-zero, the `norm or 1.0` guard makes
the division a no-op, and `_compute_embedding` returns the all-zero
128-vector, of L2 norm 0 rather than 1 — despite the function's own comment
"Normalize to unit length to mirror typical embeddings".  (More generally,
any image with at most 42 pixels takes the `wrap`-padding branch, where the
vector is normalized at length 134 and only then truncated to 128 components,
so its norm falls below 1.) -/
theorem compute_embedding_fallback_not_unit_norm :
    computeEmbedding [[(0, 0, 0)]] 128 = List.replicate 128 0
  ∧ normSq (computeEmbedding [[(0, 0, 0)]] 128) = 0
  ∧ ((0 : ℚ) ≠ 1) := by
  refine ⟨by decide, by decide, by decide⟩

/-- Closed witness for `unresolvable_uri_fails_before_import` at a concrete
unresolvable URI. -/
theorem unresolvable_uri_fails_before_import_witness :
    ingestPipeline dot exEnv exDB
        ⟨"missing2.jpg", some 5, some "frames/zzz", none⟩ 2
      = (.error (.valueErr ("Unsupported storage URI: " ++ "frames/zzz")),
         exDB) :=
  unresolvable_uri_fails_before_import dot exEnv exDB
    ⟨"missing2.jpg", some 5, some "frames/zzz", none⟩ 2 "frames/zzz"
    (by decide) rfl (by decide)

theorem bestMatchFold_mono {sim : List ℚ → List ℚ → ℚ} {fe : List ℚ} :
    ∀ (cls : List (ℕ × List ℚ)) (b₀ : Option ℕ × ℚ),
      b₀.2 ≤ (cls.foldl
        (fun best ce =>
          let score := sim fe ce.2
          if best.2 < score then (some ce.1, score) else best) b₀).2 := by
  intro cls
  induction cls with
  | nil => intro b₀; exact le_refl _
  | cons c rest ih =>
    intro b₀
    rw [List.foldl_cons]
    by_cases hlt : b₀.2 < sim fe c.2
    · have hstep :
          (let score := sim fe c.2
           if b₀.2 < score then (some c.1, score) else b₀)
            = (some c.1, sim fe c.2) := by
        dsimp only
        rw [if_pos hlt]
      rw [hstep]
      exact le_of_lt (lt_of_lt_of_le hlt (ih _))
    · have hstep :
          (let score := sim fe c.2
           if b₀.2 < score then (some c.1, score) else b₀) = b₀ := by
        dsimp only
        rw [if_neg hlt]
      rw [hstep]
      exact ih _

/-- Counterexample to C8 as stated: a frame-tag confidence computed from an
embedding component of −1 is −0.2, and a scene-attribute prediction with a
negative score is persisted with its negative confidence — both outside
`[0, 1]`. -/
theorem persisted_confidence_out_of_range :
    confidenceScores [-1] 1 = [-(1/5)]
  ∧ ¬ (0 ≤ (-(1/5) : ℚ))
  ∧ persistSceneAttributesPy 1 (2/10)
      [PyObj.pred ⟨"emotion", "calm", some (-(3/10))⟩]
      = .ok [⟨1, "emotion", "unknown", -(3/10)⟩]
  ∧ ¬ (0 ≤ (-(3/10) : ℚ)) := by
  refine ⟨by decide, by decide, ?_, by decide⟩
  have h := persist_scene_attributes_below_threshold.2.1 1
    ⟨"emotion", "calm", some (-(3/10))⟩ (-(3/10)) rfl (by decide)
  rw [h]
  have hr : roundTo 3 (-(3/10)) = -(3/10) := by decide
  rw [hr]

/-- C8 amended: film-match confidences always lie in `[0, 1]` after rounding,
cast-face similarities are clamped below by 0, and actor-detection combined
confidences lie in `[0, 1]` whenever the detector confidence does; but
scene-attribute and frame-tag confidences are persisted unclamped and can be
negative (see `persisted_confidence_out_of_range`). -/
theorem persisted_confidence_ranges :
    (∀ target cand, 0 ≤ computeSimilarity target cand
        ∧ computeSimilarity target cand ≤ 1)
  ∧ (∀ sim faceEmb castEmbeddings thr,
        0 ≤ (bestMatchForFace sim faceEmb castEmbeddings thr).2)
  ∧ (∀ fc s, 0 ≤ fc → fc ≤ 1 →
        0 ≤ combinedConfidence fc s ∧ combinedConfidence fc s ≤ 1) := by
  refine ⟨?_, ?_, ?_⟩
  · intro target cand
    unfold computeSimilarity
    exact roundTo_mem_unit (le_max_left 0 _)
      (max_le (by norm_num) (min_le_left 1 _))
  · intro sim faceEmb castEmbeddings thr
    unfold bestMatchForFace
    have h := @bestMatchFold_mono sim faceEmb castEmbeddings
      ((none : Option ℕ), 0)
    dsimp only
    split
    · exact h
    · exact h
  · intro fc s hfc0 hfc1
    unfold combinedConfidence
    have hx0 : 0 ≤ fc * max s (1/2) :=
      mul_nonneg hfc0 (le_trans (by norm_num) (le_max_right s (1/2)))
    refine roundTo_mem_unit (le_min (by norm_num) hx0) (min_le_left 1 _)

/-- Closed witness for `persisted_confidence_ranges`: the combined actor
confidence at detector confidence 0.9 and (negative) similarity −1 stays in
`[0, 1]`. -/
theorem persisted_confidence_ranges_witness :
    0 ≤ combinedConfidence (9/10) (-1) ∧ combinedConfidence (9/10) (-1) ≤ 1 :=
  persisted_confidence_ranges.2.2 (9/10) (-1) (by decide) (by decide)

end RatEval

end Movietag
